import Mathlib

/-!
Verification of the Screenwriter Studio screenplay segmenter and
continuation planner (src/app.py), shallowly embedded in Lean 4.

The embedding models the Python string primitives the code uses
(`str.strip`, `str.rstrip`, `str.isupper`, `str.split`, `str.splitlines`,
`str.replace`, `" ".join`, substring containment) over `List Char`, with
ASCII case semantics (the screenplay text the app handles is ASCII) and
line breaks `\n`, `\r\n`, `\r`.  The segmenter `parse_script_blocks`
(app.py lines 251-284), the model picker `pick_model_for_generation`
(lines 287-290) and the planning portion of `generate_next_scene`
(lines 565-641) are translated directly from the source.
-/

namespace Screenwriter

/-- Whitespace characters stripped by Python `str.strip` (ASCII range). -/
def pyIsSpace (c : Char) : Bool :=
  c = ' ' || c = '\t' || c = '\n' || c = '\r' || c = '\x0b' || c = '\x0c'

/-- Python `str.isupper` (ASCII): at least one cased character and no
lower-case character. -/
def pyIsUpper (s : String) : Bool :=
  s.data.any Char.isUpper && !(s.data.any Char.isLower)

/-- Strip leading and trailing whitespace from a character list
(Python `str.strip`). -/
def stripL (l : List Char) : List Char :=
  (((l.dropWhile pyIsSpace).reverse).dropWhile pyIsSpace).reverse

/-- Python `str.strip`. -/
def pyStrip (s : String) : String := ⟨stripL s.data⟩

/-- Python `str.rstrip`: strip trailing whitespace only. -/
def pyRstrip (s : String) : String := ⟨((s.data.reverse).dropWhile pyIsSpace).reverse⟩

/-- Replace every occurrence of the two-character escape sequence
backslash-n by a real newline, left to right
(Python `text.replace("\\n", "\n")`, app.py line 254). -/
def replaceEscNl : List Char → List Char
  | '\\' :: 'n' :: cs => '\n' :: replaceEscNl cs
  | c :: cs => c :: replaceEscNl cs
  | [] => []

/-- Python `str.splitlines` over character lists, for the line breaks
`\n`, `\r\n` and `\r`.  The empty string yields no lines and a trailing
line break does not create a trailing empty line. -/
def splitlinesChars : List Char → List (List Char)
  | [] => []
  | '\n' :: cs => [] :: splitlinesChars cs
  | '\r' :: '\n' :: cs => [] :: splitlinesChars cs
  | '\r' :: cs => [] :: splitlinesChars cs
  | c :: cs =>
    match splitlinesChars cs with
    | [] => [[c]]
    | l :: ls => (c :: l) :: ls

/-- Python `str.splitlines`. -/
def pySplitlines (s : String) : List String :=
  (splitlinesChars s.data).map (fun l => ⟨l⟩)

/-- Count of maximal non-whitespace runs, scanning with a flag telling
whether the previous character was a separator. -/
def countRunsAux : Bool → List Char → Nat
  | _, [] => 0
  | prevSpace, c :: cs =>
    if pyIsSpace c then countRunsAux true cs
    else (if prevSpace then 1 else 0) + countRunsAux false cs

/-- Python `len(s.split())`: number of whitespace-separated words. -/
def pyWordCount (s : String) : Nat := countRunsAux true s.data

/-- Python `sep.join(parts)`. -/
def pyJoin (sep : String) : List String → String
  | [] => ""
  | [x] => x
  | x :: xs => x ++ sep ++ pyJoin sep xs

/-- Does `hay` contain `needle` as a contiguous substring
(Python `needle in hay`)? -/
def containsSub (needle : List Char) : List Char → Bool
  | [] => needle.isEmpty
  | c :: t => needle.isPrefixOf (c :: t) || containsSub needle t

/-- Python `sub in s` for strings. -/
def pyContains (s sub : String) : Bool := containsSub sub.data s.data

/-- ASCII-lower-cased character data of a string. -/
def lowerData (s : String) : List Char := s.data.map Char.toLower

/-- Case-insensitive prefix test (`p` is given lower-case). -/
def startsWithCI (s p : String) : Bool := p.data.isPrefixOf (lowerData s)

/-- Case-insensitive suffix test (`p` is given lower-case). -/
def endsWithCI (s p : String) : Bool := p.data.isSuffixOf (lowerData s)

/-- The scene-heading test of app.py line 263:
`re.match(r'^(INT\.|EXT\.|INT/EXT\.)', ln, flags=re.IGNORECASE)`. -/
def isSceneHeading (ln : String) : Bool :=
  startsWithCI ln "int." || startsWithCI ln "ext." || startsWithCI ln "int/ext."

/-- The transition test of app.py line 267:
`re.search(r'(CUT TO:|FADE OUT:|FADE IN:)$', ln, flags=re.IGNORECASE)`. -/
def isTransition (ln : String) : Bool :=
  endsWithCI ln "cut to:" || endsWithCI ln "fade out:" || endsWithCI ln "fade in:"

/-- The five block classifications produced by the segmenter
(the `type` field of the dicts built in app.py lines 264-282). -/
inductive BlockType where
  | scene_heading
  | transition
  | character
  | dialogue
  | action
deriving DecidableEq

/-- A screenplay block: classification plus text
(the dict `{"type": ..., "text": ...}` of app.py). -/
structure Block where
  type : BlockType
  text : String
deriving DecidableEq

/-- The condition of the inner dialogue loop of app.py line 275:
the line is non-blank after stripping and not all upper-case. -/
def goodDlg (l : String) : Bool := !(pyStrip l == "") && !(pyIsUpper (pyStrip l))

/-- The inner `while` loop of app.py lines 273-277: consume the stripped
forms of the leading lines satisfying `goodDlg`, returning them together
with the unconsumed remainder of the line list. -/
def takeDialogue : List String → List String × List String
  | [] => ([], [])
  | l :: rest =>
    if goodDlg l then
      ((pyStrip l) :: (takeDialogue rest).1, (takeDialogue rest).2)
    else ([], l :: rest)

/-- The outer `while` loop of app.py lines 258-283, with an explicit fuel
argument bounding the number of iterations; the source loop advances `i`
by at least one line per iteration, so fuel equal to the number of lines
always suffices (see `parseLinesFuel_congr`). -/
def parseLinesFuel : Nat → List String → List Block
  | _, [] => []
  | 0, _ :: _ => []
  | Nat.succ fuel, l :: rest =>
    let ln := pyStrip l
    if ln = "" then parseLinesFuel fuel rest
    else if isSceneHeading ln then
      ⟨BlockType.scene_heading, ln⟩ :: parseLinesFuel fuel rest
    else if isTransition ln then
      ⟨BlockType.transition, ln⟩ :: parseLinesFuel fuel rest
    else if pyIsUpper ln ∧ pyWordCount ln ≤ 6 then
      ⟨BlockType.character, ln⟩ ::
        (if (takeDialogue rest).1 = [] then []
         else [⟨BlockType.dialogue, pyJoin " " (takeDialogue rest).1⟩]) ++
        parseLinesFuel fuel (takeDialogue rest).2
    else
      ⟨BlockType.action, ln⟩ :: parseLinesFuel fuel rest

/-- The segmenter loop on a list of lines. -/
def parseLines (ls : List String) : List Block := parseLinesFuel ls.length ls

/-- `parse_script_blocks` (app.py lines 251-284): normalize escaped
newlines, split into lines, right-strip each line, then run the
classification loop.  The empty string returns no blocks. -/
def parse_script_blocks (text : String) : List Block :=
  if text = "" then []
  else parseLines ((pySplitlines ⟨replaceEscNl text.data⟩).map pyRstrip)

/-- `pick_model_for_generation` (app.py lines 287-290). -/
def pick_model_for_generation (prompt_text : String) : String :=
  if prompt_text.length < 300 then "llama3-8b-8192" else "llama3-70b-8192"

/-- Count of scene-heading blocks
(`sum(1 for b in blocks if b["type"] == "scene_heading")`, app.py line 612). -/
def countSceneHeadings (bs : List Block) : Nat :=
  bs.countP (fun b => b.type = BlockType.scene_heading)

/-- The default next-scene instruction of app.py line 610. -/
def generic_instruction : String :=
  "Continue with the next scene that follows logically."

/-- The outline-driven beat instruction of app.py line 614. -/
def beat_instruction (blocks : List Block) : String :=
  "Using the previously created outline, write the scene corresponding to beat #" ++
    toString (countSceneHeadings blocks + 1) ++ "."

/-- The task line of the social-media branch prompt of app.py line 593. -/
def social_instruction : String :=
  "Write a new variation/next beat for the short-form video that follows from existing script."

/-- The planning portion of `generate_next_scene` (app.py lines 565-641):
segment the stripped draft, then pick the instruction describing the next
unit of content.  The social-media branch (line 583) is selected when the
script format contains "Social Media"; otherwise, a non-empty stored
outline targets the beat after the current scene-heading count
(lines 610-614). -/
def generate_next_scene_instruction
    (script_format script_text story_outline : String) : String :=
  if pyContains script_format "Social Media" then social_instruction
  else if story_outline ≠ "" then
    beat_instruction (parse_script_blocks (pyStrip script_text))
  else generic_instruction

/-! Basic facts about the dialogue loop and the fuel of the main loop. -/

theorem takeDialogue_eq (ls : List String) :
    takeDialogue ls = ((ls.takeWhile goodDlg).map pyStrip, ls.dropWhile goodDlg) := by
  induction ls with
  | nil => rfl
  | cons l rest ih =>
    cases hg : goodDlg l with
    | true => simp [takeDialogue, hg, List.takeWhile_cons, List.dropWhile_cons, ih]
    | false => simp [takeDialogue, hg, List.takeWhile_cons, List.dropWhile_cons]

theorem takeDialogue_len (ls : List String) :
    (takeDialogue ls).2.length ≤ ls.length := by
  induction ls with
  | nil => simp [takeDialogue]
  | cons l rest ih =>
    cases hg : goodDlg l with
    | true => simp only [takeDialogue, hg, if_true]; exact le_trans ih (Nat.le_succ _)
    | false => simp [takeDialogue, hg]

theorem parseLinesFuel_congr (f g : Nat) (ls : List String)
    (hf : ls.length ≤ f) (hg : ls.length ≤ g) :
    parseLinesFuel f ls = parseLinesFuel g ls := by
  induction f generalizing g ls with
  | zero =>
    have h : ls = [] := List.length_eq_zero.mp (Nat.le_zero.mp hf)
    subst h; cases g <;> rfl
  | succ f ih =>
    cases ls with
    | nil => cases g <;> rfl
    | cons l rest =>
      cases g with
      | zero => simp at hg
      | succ g =>
        have hf' : rest.length ≤ f := by simpa using hf
        have hg' : rest.length ≤ g := by simpa using hg
        have hrem : (takeDialogue rest).2.length ≤ rest.length := takeDialogue_len rest
        simp only [parseLinesFuel]
        by_cases h0 : pyStrip l = ""
        · simp [h0, ih g rest hf' hg']
        · by_cases h1 : isSceneHeading (pyStrip l)
          · simp [h0, h1, ih g rest hf' hg']
          · by_cases h2 : isTransition (pyStrip l)
            · simp [h0, h1, h2, ih g rest hf' hg']
            · by_cases h3 : pyIsUpper (pyStrip l) ∧ pyWordCount (pyStrip l) ≤ 6
              · simp [h0, h1, h2, h3,
                  ih g (takeDialogue rest).2 (le_trans hrem hf') (le_trans hrem hg')]
              · simp [h0, h1, h2, h3, ih g rest hf' hg']

/-! Step equations for `parseLines`, one per branch of the source loop. -/

theorem parseLines_nil : parseLines [] = [] := rfl

theorem parseLines_cons_blank (l : String) (rest : List String)
    (h : pyStrip l = "") : parseLines (l :: rest) = parseLines rest := by
  show parseLinesFuel (rest.length + 1) (l :: rest) = _
  simp [parseLinesFuel, h, parseLines]

theorem pyIsUpper_ne_blank {s : String} (h : pyIsUpper s = true) : s ≠ "" := by
  intro he; subst he; exact absurd h (by decide)

theorem isSceneHeading_ne_blank {s : String} (h : isSceneHeading s = true) : s ≠ "" := by
  intro he; subst he; exact absurd h (by decide)

theorem isTransition_ne_blank {s : String} (h : isTransition s = true) : s ≠ "" := by
  intro he; subst he; exact absurd h (by decide)

theorem parseLines_cons_scene (l : String) (rest : List String)
    (h : isSceneHeading (pyStrip l) = true) :
    parseLines (l :: rest) = ⟨BlockType.scene_heading, pyStrip l⟩ :: parseLines rest := by
  show parseLinesFuel (rest.length + 1) (l :: rest) = _
  simp [parseLinesFuel, isSceneHeading_ne_blank h, h, parseLines]

theorem parseLines_cons_transition (l : String) (rest : List String)
    (h0 : isSceneHeading (pyStrip l) = false) (h : isTransition (pyStrip l) = true) :
    parseLines (l :: rest) = ⟨BlockType.transition, pyStrip l⟩ :: parseLines rest := by
  show parseLinesFuel (rest.length + 1) (l :: rest) = _
  simp [parseLinesFuel, isTransition_ne_blank h, h0, h, parseLines]

theorem parseLines_cons_character (l : String) (rest : List String)
    (h0 : isSceneHeading (pyStrip l) = false) (h1 : isTransition (pyStrip l) = false)
    (h2 : pyIsUpper (pyStrip l) = true) (h3 : pyWordCount (pyStrip l) ≤ 6) :
    parseLines (l :: rest) =
      ⟨BlockType.character, pyStrip l⟩ ::
        (if (takeDialogue rest).1 = [] then []
         else [⟨BlockType.dialogue, pyJoin " " (takeDialogue rest).1⟩]) ++
        parseLines (takeDialogue rest).2 := by
  show parseLinesFuel (rest.length + 1) (l :: rest) = _
  have hrem : (takeDialogue rest).2.length ≤ rest.length := takeDialogue_len rest
  simp [parseLinesFuel, pyIsUpper_ne_blank h2, h0, h1, h2, h3, parseLines,
    parseLinesFuel_congr rest.length (takeDialogue rest).2.length (takeDialogue rest).2
      hrem le_rfl]

theorem parseLines_cons_action (l : String) (rest : List String)
    (hb : pyStrip l ≠ "")
    (h0 : isSceneHeading (pyStrip l) = false) (h1 : isTransition (pyStrip l) = false)
    (h2 : ¬(pyIsUpper (pyStrip l) = true ∧ pyWordCount (pyStrip l) ≤ 6)) :
    parseLines (l :: rest) = ⟨BlockType.action, pyStrip l⟩ :: parseLines rest := by
  show parseLinesFuel (rest.length + 1) (l :: rest) = _
  simp [parseLinesFuel, hb, h0, h1, h2, parseLines]

/-! Joining lemmas for `pyJoin`. -/

theorem pyJoin_cons (x : String) {xs : List String} (h : xs ≠ []) :
    pyJoin " " (x :: xs) = x ++ " " ++ pyJoin " " xs := by
  cases xs with
  | nil => exact absurd rfl h
  | cons y ys => rfl

theorem pyJoin_cons_congr (a : String) {A B : List String}
    (h : pyJoin " " A = pyJoin " " B) (hne : A = [] ↔ B = []) :
    pyJoin " " (a :: A) = pyJoin " " (a :: B) := by
  cases A with
  | nil =>
    have hB : B = [] := hne.mp rfl
    subst hB; rfl
  | cons x xs =>
    cases B with
    | nil => exact absurd (hne.mpr rfl) (by simp)
    | cons y ys =>
      rw [pyJoin_cons a (by simp), pyJoin_cons a (by simp), h]

theorem pyJoin_append_congr (d : List String) {A B : List String}
    (h : pyJoin " " A = pyJoin " " B) (hne : A = [] ↔ B = []) :
    pyJoin " " (d ++ A) = pyJoin " " (d ++ B) := by
  induction d with
  | nil => exact h
  | cons x xs ih =>
    simp only [List.cons_append]
    exact pyJoin_cons_congr x ih (by simp [List.append_eq_nil, hne])

theorem pyJoin_glue (x y : String) (ys : List String) :
    pyJoin " " ((x ++ " " ++ y) :: ys) = x ++ " " ++ pyJoin " " (y :: ys) := by
  cases ys with
  | nil => rfl
  | cons z zs =>
    rw [pyJoin_cons _ (by simp), pyJoin_cons y (by simp)]
    simp [String.append_assoc]

theorem pyJoin_flatten {d : List String} (hd : d ≠ []) (ys : List String) :
    pyJoin " " (pyJoin " " d :: ys) = pyJoin " " (d ++ ys) := by
  induction d with
  | nil => exact absurd rfl hd
  | cons x xs ih =>
    cases xs with
    | nil => rfl
    | cons y zs =>
      have e1 : pyJoin " " (x :: y :: zs) = x ++ " " ++ pyJoin " " (y :: zs) :=
        pyJoin_cons x (by simp)
      have e2 : pyJoin " " (x :: (y :: zs ++ ys)) =
          x ++ " " ++ pyJoin " " (y :: zs ++ ys) := pyJoin_cons x (by simp)
      calc pyJoin " " (pyJoin " " (x :: y :: zs) :: ys)
          = pyJoin " " ((x ++ " " ++ pyJoin " " (y :: zs)) :: ys) := by rw [e1]
        _ = x ++ " " ++ pyJoin " " (pyJoin " " (y :: zs) :: ys) := pyJoin_glue _ _ _
        _ = x ++ " " ++ pyJoin " " (y :: zs ++ ys) := by rw [ih (by simp)]
        _ = pyJoin " " (x :: (y :: zs ++ ys)) := e2.symm
        _ = pyJoin " " ((x :: y :: zs) ++ ys) := by simp

/-! The reconstruction property of the segmenter (spec section 8, first
item): the non-blank stripped lines of the input are exactly the lines
covered by the emitted blocks, in order, with nothing lost or duplicated. -/

/-- The non-blank content of a list of lines: each line stripped, blank
lines dropped. -/
def nonBlankLines (ls : List String) : List String :=
  (ls.map pyStrip).filter (fun s => s ≠ "")

theorem nonBlankLines_nil : nonBlankLines [] = [] := rfl

theorem nonBlankLines_cons_blank {l : String} (rest : List String)
    (h : pyStrip l = "") : nonBlankLines (l :: rest) = nonBlankLines rest := by
  simp [nonBlankLines, h]

theorem nonBlankLines_cons {l : String} (rest : List String)
    (h : pyStrip l ≠ "") :
    nonBlankLines (l :: rest) = pyStrip l :: nonBlankLines rest := by
  simp [nonBlankLines, h]

theorem goodDlg_iff {l : String} :
    goodDlg l = true ↔ pyStrip l ≠ "" ∧ pyIsUpper (pyStrip l) = false := by
  simp [goodDlg]

theorem nonBlankLines_takeDialogue (rest : List String) :
    nonBlankLines rest =
      (takeDialogue rest).1 ++ nonBlankLines (takeDialogue rest).2 := by
  induction rest with
  | nil => rfl
  | cons l rs ih =>
    cases hg : goodDlg l with
    | true =>
      have hne : pyStrip l ≠ "" := (goodDlg_iff.mp hg).1
      simp only [takeDialogue, hg, if_true, nonBlankLines_cons rs hne, ih,
        List.cons_append]
    | false => simp [takeDialogue, hg]

theorem parseLines_reconstruct : ∀ (n : Nat) (ls : List String), ls.length ≤ n →
    pyJoin " " ((parseLines ls).map Block.text) = pyJoin " " (nonBlankLines ls) ∧
    ((parseLines ls).map Block.text = [] ↔ nonBlankLines ls = []) := by
  intro n
  induction n with
  | zero =>
    intro ls h
    have hnil : ls = [] := List.length_eq_zero.mp (Nat.le_zero.mp h)
    subst hnil
    simp [parseLines_nil, nonBlankLines_nil]
  | succ n ih =>
    intro ls h
    cases ls with
    | nil => simp [parseLines_nil, nonBlankLines_nil]
    | cons l rest =>
      have hrest : rest.length ≤ n := by simpa using h
      by_cases h0 : pyStrip l = ""
      · rw [parseLines_cons_blank l rest h0, nonBlankLines_cons_blank rest h0]
        exact ih rest hrest
      · have hnb := nonBlankLines_cons rest h0
        obtain ⟨ihe, ihi⟩ := ih rest hrest
        have step : ∀ bt : BlockType,
            pyJoin " " ((⟨bt, pyStrip l⟩ :: parseLines rest).map Block.text) =
              pyJoin " " (nonBlankLines (l :: rest)) ∧
            ((⟨bt, pyStrip l⟩ :: parseLines rest).map Block.text = [] ↔
              nonBlankLines (l :: rest) = []) := by
          intro bt
          rw [hnb]
          constructor
          · simp only [List.map_cons]
            exact pyJoin_cons_congr _ ihe (by rw [← ihi])
          · simp
        by_cases h1 : isSceneHeading (pyStrip l)
        · rw [parseLines_cons_scene l rest h1]; exact step _
        · have h1f : isSceneHeading (pyStrip l) = false := by simpa using h1
          by_cases h2 : isTransition (pyStrip l)
          · rw [parseLines_cons_transition l rest h1f h2]; exact step _
          · have h2f : isTransition (pyStrip l) = false := by simpa using h2
            by_cases h3 : pyIsUpper (pyStrip l) ∧ pyWordCount (pyStrip l) ≤ 6
            · rw [parseLines_cons_character l rest h1f h2f h3.1 h3.2]
              have hrem : (takeDialogue rest).2.length ≤ n :=
                le_trans (takeDialogue_len rest) hrest
              obtain ⟨rme, rmi⟩ := ih (takeDialogue rest).2 hrem
              have hsplit := nonBlankLines_takeDialogue rest
              rw [hnb, hsplit]
              by_cases hd : (takeDialogue rest).1 = []
              · rw [hd, if_pos rfl]
                constructor
                · simpa using pyJoin_cons_congr (pyStrip l) rme (by rw [← rmi])
                · simp
              · rw [if_neg hd]
                constructor
                · have hmap :
                      (((⟨BlockType.character, pyStrip l⟩ : Block) ::
                        [(⟨BlockType.dialogue, pyJoin " " (takeDialogue rest).1⟩ : Block)] ++
                        parseLines (takeDialogue rest).2).map Block.text) =
                      pyStrip l :: pyJoin " " (takeDialogue rest).1 ::
                        (parseLines (takeDialogue rest).2).map Block.text := by simp
                  rw [hmap]
                  have e1 : pyJoin " " (pyStrip l :: pyJoin " " (takeDialogue rest).1 ::
                        (parseLines (takeDialogue rest).2).map Block.text) =
                      pyStrip l ++ " " ++ pyJoin " " (pyJoin " " (takeDialogue rest).1 ::
                        (parseLines (takeDialogue rest).2).map Block.text) :=
                    pyJoin_cons _ (by simp)
                  have e2 : pyJoin " " (pyStrip l ::
                        ((takeDialogue rest).1 ++ nonBlankLines (takeDialogue rest).2)) =
                      pyStrip l ++ " " ++ pyJoin " "
                        ((takeDialogue rest).1 ++ nonBlankLines (takeDialogue rest).2) :=
                    pyJoin_cons _ (by simp [hd])
                  rw [e1, e2, pyJoin_flatten hd]
                  exact congrArg (fun z => pyStrip l ++ " " ++ z)
                    (pyJoin_append_congr _ rme (by rw [← rmi]))
                · simp
            · rw [parseLines_cons_action l rest h0 h1f h2f h3]; exact step _

/-! Whitespace toolkit: a string is "clean" when it has no leading and no
trailing whitespace; `pyStrip` always produces clean strings and is the
identity on them, and joining non-empty clean strings with single spaces
is clean. -/

theorem length_dropWhile_le {α : Type} (p : α → Bool) (l : List α) :
    (l.dropWhile p).length ≤ l.length := by
  induction l with
  | nil => simp
  | cons c t ih =>
    rw [List.dropWhile_cons]
    by_cases hp : p c
    · rw [if_pos hp]; exact Nat.le_trans ih (Nat.le_succ _)
    · rw [if_neg hp]

theorem dropWhile_cons_self {α : Type} {p : α → Bool} {c : α} {t : List α}
    (h : (c :: t).dropWhile p = c :: t) : p c = false := by
  by_cases hp : p c
  · exfalso
    rw [List.dropWhile_cons, if_pos hp] at h
    have hlen := congrArg List.length h
    have hle := length_dropWhile_le p t
    simp only [List.length_cons] at hlen
    omega
  · simpa using hp

theorem dropWhile_idem {α : Type} (p : α → Bool) (l : List α) :
    (l.dropWhile p).dropWhile p = l.dropWhile p := by
  cases h : l.dropWhile p with
  | nil => rfl
  | cons c t =>
    have hh := List.head?_dropWhile_not p l
    rw [h] at hh
    simp only [List.head?_cons] at hh
    simp [List.dropWhile_cons, hh]

theorem dropWhile_eq_self_of_append {α : Type} (p : α → Bool) (A B : List α)
    (h : (A ++ B).dropWhile p = A ++ B) : A.dropWhile p = A := by
  cases A with
  | nil => rfl
  | cons c t =>
    rw [List.cons_append] at h
    have hc : p c = false := dropWhile_cons_self h
    simp [List.dropWhile_cons, hc]

theorem dropWhile_append_of_head {α : Type} (p : α → Bool) {A : List α} (B : List α)
    (hA : A ≠ []) (h : A.dropWhile p = A) : (A ++ B).dropWhile p = A ++ B := by
  cases A with
  | nil => exact absurd rfl hA
  | cons c t =>
    have hc : p c = false := dropWhile_cons_self h
    simp [List.dropWhile_cons, hc]

theorem stripL_dropWhile_right (l : List Char) :
    ((stripL l).reverse).dropWhile pyIsSpace = (stripL l).reverse := by
  simp only [stripL, List.reverse_reverse]
  exact dropWhile_idem _ _

theorem stripL_prefix_decomp (l : List Char) :
    stripL l ++ (((l.dropWhile pyIsSpace).reverse.takeWhile pyIsSpace)).reverse =
      l.dropWhile pyIsSpace := by
  simp only [stripL]
  rw [← List.reverse_append, List.takeWhile_append_dropWhile, List.reverse_reverse]

theorem stripL_dropWhile_left (l : List Char) :
    (stripL l).dropWhile pyIsSpace = stripL l := by
  apply dropWhile_eq_self_of_append pyIsSpace (stripL l)
    ((((l.dropWhile pyIsSpace).reverse.takeWhile pyIsSpace)).reverse)
  rw [stripL_prefix_decomp]
  exact dropWhile_idem _ _

theorem stripL_idem (l : List Char) : stripL (stripL l) = stripL l := by
  have h1 := stripL_dropWhile_left l
  have h2 := stripL_dropWhile_right l
  simp only [stripL]
  rw [show ((((l.dropWhile pyIsSpace).reverse).dropWhile pyIsSpace).reverse) = stripL l
      from rfl, h1, h2, List.reverse_reverse]

theorem pyStrip_idem (s : String) : pyStrip (pyStrip s) = pyStrip s := by
  show (⟨stripL (stripL s.data)⟩ : String) = ⟨stripL s.data⟩
  rw [stripL_idem]

/-- No leading and no trailing whitespace. -/
def strClean (s : String) : Prop :=
  s.data.dropWhile pyIsSpace = s.data ∧
    s.data.reverse.dropWhile pyIsSpace = s.data.reverse

theorem strClean_pyStrip (s : String) : strClean (pyStrip s) :=
  ⟨stripL_dropWhile_left s.data, stripL_dropWhile_right s.data⟩

theorem pyStrip_eq_self {s : String} (h : strClean s) : pyStrip s = s := by
  have hdata : stripL s.data = s.data := by
    simp only [stripL, h.1, h.2, List.reverse_reverse]
  show (⟨stripL s.data⟩ : String) = s
  rw [hdata]

theorem str_ne_empty_iff (s : String) : s ≠ "" ↔ s.data ≠ [] := by
  cases s; simp [String.ext_iff]

theorem data_append (a b : String) : (a ++ b).data = a.data ++ b.data := rfl

theorem strClean_join (ds : List String) (hne : ds ≠ [])
    (hall : ∀ x ∈ ds, x ≠ "" ∧ strClean x) :
    pyJoin " " ds ≠ "" ∧ strClean (pyJoin " " ds) := by
  induction ds with
  | nil => exact absurd rfl hne
  | cons d es ih =>
    cases es with
    | nil => simpa [pyJoin] using hall d (by simp)
    | cons e es2 =>
      obtain ⟨hdn, hdc⟩ := hall d (by simp)
      obtain ⟨hJn, hJc⟩ := ih (by simp) (fun x hx => hall x (by simp [hx]))
      rw [pyJoin_cons d (by simp)]
      have hdata : (d ++ " " ++ pyJoin " " (e :: es2)).data =
          d.data ++ (' ' :: (pyJoin " " (e :: es2)).data) := by
        simp [data_append]
      constructor
      · rw [str_ne_empty_iff, hdata]
        simp
      · constructor
        · rw [show (d ++ " " ++ pyJoin " " (e :: es2)).data.dropWhile pyIsSpace =
              (d.data ++ (' ' :: (pyJoin " " (e :: es2)).data)).dropWhile pyIsSpace
              from by rw [hdata], hdata]
          exact dropWhile_append_of_head pyIsSpace _
            ((str_ne_empty_iff d).mp hdn) hdc.1
        · have hrev : (d ++ " " ++ pyJoin " " (e :: es2)).data.reverse =
              (pyJoin " " (e :: es2)).data.reverse ++ (' ' :: d.data.reverse) := by
            rw [hdata]
            simp [List.reverse_append, List.reverse_cons, List.append_assoc]
          rw [hrev]
          exact dropWhile_append_of_head pyIsSpace _
            (by simpa using (str_ne_empty_iff _).mp hJn) hJc.2

theorem takeDialogue_mem {ls : List String} {x : String}
    (hx : x ∈ (takeDialogue ls).1) : x ≠ "" ∧ strClean x := by
  rw [takeDialogue_eq] at hx
  simp only [List.mem_map] at hx
  obtain ⟨l, hl, rfl⟩ := hx
  have hg : goodDlg l = true := List.mem_takeWhile_imp hl
  exact ⟨(goodDlg_iff.mp hg).1, strClean_pyStrip l⟩

theorem parseLines_blocks_clean : ∀ (n : Nat) (ls : List String), ls.length ≤ n →
    ∀ b ∈ parseLines ls, b.text ≠ "" ∧ pyStrip b.text = b.text := by
  intro n
  induction n with
  | zero =>
    intro ls h b hb
    have hnil : ls = [] := List.length_eq_zero.mp (Nat.le_zero.mp h)
    subst hnil
    rw [parseLines_nil] at hb
    simp at hb
  | succ n ih =>
    intro ls h b hb
    cases ls with
    | nil => rw [parseLines_nil] at hb; simp at hb
    | cons l rest =>
      have hrest : rest.length ≤ n := by simpa using h
      by_cases h0 : pyStrip l = ""
      · rw [parseLines_cons_blank l rest h0] at hb
        exact ih rest hrest b hb
      · have hhead : ∀ bt : BlockType, b = ⟨bt, pyStrip l⟩ →
            b.text ≠ "" ∧ pyStrip b.text = b.text := by
          intro bt hbt; subst hbt
          exact ⟨h0, pyStrip_idem l⟩
        by_cases h1 : isSceneHeading (pyStrip l)
        · rw [parseLines_cons_scene l rest h1] at hb
          rcases List.mem_cons.mp hb with hb1 | hb2
          · exact hhead _ hb1
          · exact ih rest hrest b hb2
        · have h1f : isSceneHeading (pyStrip l) = false := by simpa using h1
          by_cases h2 : isTransition (pyStrip l)
          · rw [parseLines_cons_transition l rest h1f h2] at hb
            rcases List.mem_cons.mp hb with hb1 | hb2
            · exact hhead _ hb1
            · exact ih rest hrest b hb2
          · have h2f : isTransition (pyStrip l) = false := by simpa using h2
            by_cases h3 : pyIsUpper (pyStrip l) ∧ pyWordCount (pyStrip l) ≤ 6
            · rw [parseLines_cons_character l rest h1f h2f h3.1 h3.2] at hb
              rcases List.mem_cons.mp hb with hb1 | hb2
              · exact hhead _ hb1
              · rcases List.mem_append.mp hb2 with hdl | hrm
                · by_cases hd : (takeDialogue rest).1 = []
                  · rw [hd, if_pos rfl] at hdl; simp at hdl
                  · rw [if_neg hd] at hdl
                    simp only [List.mem_singleton] at hdl
                    subst hdl
                    have hj := strClean_join (takeDialogue rest).1 hd
                      (fun x hx => takeDialogue_mem hx)
                    exact ⟨hj.1, pyStrip_eq_self hj.2⟩
                · exact ih (takeDialogue rest).2
                    (le_trans (takeDialogue_len rest) hrest) b hrm
            · rw [parseLines_cons_action l rest h0 h1f h2f h3] at hb
              rcases List.mem_cons.mp hb with hb1 | hb2
              · exact hhead _ hb1
              · exact ih rest hrest b hb2

/-! Dialogue blocks are always emitted directly after their character
block (app.py lines 272-279 append the character dict and then, when any
dialogue lines were consumed, the dialogue dict). -/

theorem prevChar_cons {x : Block} {T : List Block} (hx : x.type ≠ BlockType.dialogue)
    (hT : ∀ i b, T[i]? = some b → b.type = BlockType.dialogue →
      1 ≤ i ∧ ∃ c, T[i-1]? = some c ∧ c.type = BlockType.character) :
    ∀ i b, (x :: T)[i]? = some b → b.type = BlockType.dialogue →
      1 ≤ i ∧ ∃ c, (x :: T)[i-1]? = some c ∧ c.type = BlockType.character := by
  intro i b hib hbd
  cases i with
  | zero =>
    rw [List.getElem?_cons_zero] at hib
    simp only [Option.some.injEq] at hib
    subst hib
    exact absurd hbd hx
  | succ k =>
    rw [List.getElem?_cons_succ] at hib
    obtain ⟨hk, c, hc, hcc⟩ := hT k b hib hbd
    refine ⟨Nat.le_add_left 1 k, c, ?_, hcc⟩
    cases k with
    | zero => exact absurd hk (by omega)
    | succ m => simpa using hc

theorem prevChar_pair {c d : Block} {T : List Block}
    (hc : c.type = BlockType.character)
    (hT : ∀ i b, T[i]? = some b → b.type = BlockType.dialogue →
      1 ≤ i ∧ ∃ e, T[i-1]? = some e ∧ e.type = BlockType.character) :
    ∀ i b, (c :: d :: T)[i]? = some b → b.type = BlockType.dialogue →
      1 ≤ i ∧ ∃ e, (c :: d :: T)[i-1]? = some e ∧ e.type = BlockType.character := by
  intro i b hib hbd
  match i with
  | 0 =>
    rw [List.getElem?_cons_zero] at hib
    simp only [Option.some.injEq] at hib
    subst hib
    rw [hc] at hbd
    exact absurd hbd (by decide)
  | 1 => exact ⟨le_rfl, c, rfl, hc⟩
  | (k+2) =>
    rw [List.getElem?_cons_succ, List.getElem?_cons_succ] at hib
    obtain ⟨hk, e, he, hee⟩ := hT k b hib hbd
    refine ⟨by omega, e, ?_, hee⟩
    cases k with
    | zero => exact absurd hk (by omega)
    | succ m => simpa using he

theorem parseLines_dialogue_prev : ∀ (n : Nat) (ls : List String), ls.length ≤ n →
    ∀ i b, (parseLines ls)[i]? = some b → b.type = BlockType.dialogue →
      1 ≤ i ∧ ∃ c, (parseLines ls)[i-1]? = some c ∧ c.type = BlockType.character := by
  intro n
  induction n with
  | zero =>
    intro ls h i b hib
    have hnil : ls = [] := List.length_eq_zero.mp (Nat.le_zero.mp h)
    subst hnil
    rw [parseLines_nil] at hib
    simp at hib
  | succ n ih =>
    intro ls h
    cases ls with
    | nil =>
      intro i b hib
      rw [parseLines_nil] at hib
      simp at hib
    | cons l rest =>
      have hrest : rest.length ≤ n := by simpa using h
      by_cases h0 : pyStrip l = ""
      · rw [parseLines_cons_blank l rest h0]
        exact ih rest hrest
      · by_cases h1 : isSceneHeading (pyStrip l)
        · rw [parseLines_cons_scene l rest h1]
          exact prevChar_cons (by simp) (ih rest hrest)
        · have h1f : isSceneHeading (pyStrip l) = false := by simpa using h1
          by_cases h2 : isTransition (pyStrip l)
          · rw [parseLines_cons_transition l rest h1f h2]
            exact prevChar_cons (by simp) (ih rest hrest)
          · have h2f : isTransition (pyStrip l) = false := by simpa using h2
            by_cases h3 : pyIsUpper (pyStrip l) ∧ pyWordCount (pyStrip l) ≤ 6
            · rw [parseLines_cons_character l rest h1f h2f h3.1 h3.2]
              have hrem := ih (takeDialogue rest).2
                (le_trans (takeDialogue_len rest) hrest)
              by_cases hd : (takeDialogue rest).1 = []
              · rw [if_pos hd, List.singleton_append]
                exact prevChar_cons (by simp) hrem
              · rw [if_neg hd, List.cons_append, List.singleton_append]
                exact prevChar_pair rfl hrem
            · rw [parseLines_cons_action l rest h0 h1f h2f h3]
              exact prevChar_cons (by simp) (ih rest hrest)

/-! The claims. -/

/-- Claim C1: segmenting the scenario input consisting of a fade-in, a
diner scene heading, the character cue MARY with one dialogue line, and a
cut-to, yields exactly the five-block sequence Transition, SceneHeading,
Character, Dialogue, Transition, in that order. -/
theorem claim1_segmenter_scenario :
    parse_script_blocks "FADE IN:\n\nINT. DINER - NIGHT\n\nMARY\nWhere were you?\n\nCUT TO:" =
      [⟨BlockType.transition, "FADE IN:"⟩, ⟨BlockType.scene_heading, "INT. DINER - NIGHT"⟩,
       ⟨BlockType.character, "MARY"⟩, ⟨BlockType.dialogue, "Where were you?"⟩,
       ⟨BlockType.transition, "CUT TO:"⟩] := by decide

/-- Claim C2: for every input string, concatenating the text fields of all
blocks returned by the segmenter (dialogue lines having been joined by
single spaces) reconstructs exactly the non-blank stripped line content of
the input after its escaped-newline normalization: no line is lost and no
line is duplicated.  Both sides are compared as single-space joins; since
every joined item is a non-empty line, the equality forces the same lines
in the same order. -/
theorem claim2_segmenter_reconstructs (t : String) :
    pyJoin " " ((parse_script_blocks t).map Block.text) =
      pyJoin " " (nonBlankLines ((pySplitlines ⟨replaceEscNl t.data⟩).map pyRstrip)) := by
  by_cases ht : t = ""
  · subst ht; rfl
  · simp only [parse_script_blocks, if_neg ht]
    exact (parseLines_reconstruct _ _ le_rfl).1

/-- Claim C3: the segmenter is total — on every input string, including
arbitrary malformed text, it returns a block sequence — and every
non-blank line that reaches the classifier matching none of the
scene-heading, transition, or character-cue rules is classified as
Action. -/
theorem claim3_total_and_action_default :
    (∀ t : String, ∃ bs : List Block, parse_script_blocks t = bs) ∧
    (∀ (l : String) (rest : List String), pyStrip l ≠ "" →
      isSceneHeading (pyStrip l) = false → isTransition (pyStrip l) = false →
      ¬(pyIsUpper (pyStrip l) = true ∧ pyWordCount (pyStrip l) ≤ 6) →
      parseLines (l :: rest) = ⟨BlockType.action, pyStrip l⟩ :: parseLines rest) :=
  ⟨fun t => ⟨parse_script_blocks t, rfl⟩, parseLines_cons_action⟩

/-- Witness for claim C3 at a concrete action line. -/
theorem claim3_witness :
    parseLines ["He walks away slowly."] =
      [⟨BlockType.action, "He walks away slowly."⟩] := by
  rw [claim3_total_and_action_default.2 "He walks away slowly." []
    (by decide) (by decide) (by decide) (by decide)]
  decide

/-- Counterexample to claim C4 as stated: the line "int. diner" begins
with the INT. prefix case-insensitively, yet in the input below it is
consumed as the dialogue of the character cue JOHN and classified as
Dialogue, not SceneHeading (the dialogue loop of app.py line 275 only
stops at blank or all-upper-case lines). -/
theorem claim4_counterexample :
    isSceneHeading "int. diner" = true ∧
    parse_script_blocks "JOHN\nint. diner" =
      [⟨BlockType.character, "JOHN"⟩, ⟨BlockType.dialogue, "int. diner"⟩] := by decide

/-- Claim C4 (amended): the scene-heading check precedes the character-cue
check, so every line that reaches the classifier and begins with INT.,
EXT., or INT/EXT. (case-insensitive) is classified as SceneHeading and
never as Character, even when entirely upper-case with at most 6 words;
moreover no all-upper-case line is ever consumed as dialogue, so an
upper-case heading such as INT. KITCHEN - DAY always reaches the
classifier and always classifies as SceneHeading regardless of
surrounding blank lines.  (The original claim is false for lower-case
INT.-prefixed lines consumed as dialogue; see the counterexample.) -/
theorem claim4_amended :
    (∀ (l : String) (rest : List String), isSceneHeading (pyStrip l) = true →
      parseLines (l :: rest) =
        ⟨BlockType.scene_heading, pyStrip l⟩ :: parseLines rest) ∧
    (∀ (ls : List String) (x : String), x ∈ (takeDialogue ls).1 →
      pyIsUpper x = false) := by
  constructor
  · exact parseLines_cons_scene
  · intro ls x hx
    rw [takeDialogue_eq] at hx
    simp only [List.mem_map] at hx
    obtain ⟨l, hl, rfl⟩ := hx
    exact (goodDlg_iff.mp (List.mem_takeWhile_imp hl)).2

/-- Witness for claim C4 at the concrete heading INT. KITCHEN - DAY and a
concrete dialogue run. -/
theorem claim4_witness :
    parseLines ["INT. KITCHEN - DAY", "She waits."] =
      [⟨BlockType.scene_heading, "INT. KITCHEN - DAY"⟩,
       ⟨BlockType.action, "She waits."⟩] ∧
    pyIsUpper "hello there" = false := by
  constructor
  · rw [claim4_amended.1 "INT. KITCHEN - DAY" ["She waits."] (by decide)]
    decide
  · exact claim4_amended.2 ["hello there", "X"] "hello there" (by decide)

/-- Claim C5: a line that is entirely upper-case with at most 6 words (and
is neither a scene heading nor a transition) yields a Character block; the
immediately following non-blank, non-upper-case lines are joined with
single spaces into exactly one Dialogue block, stopping at a blank line,
an upper-case line, or end of input; when there is no such following line
a lone Character block is emitted with no paired Dialogue block. -/
theorem claim5_character_dialogue (l : String) (rest : List String)
    (h0 : isSceneHeading (pyStrip l) = false) (h1 : isTransition (pyStrip l) = false)
    (h2 : pyIsUpper (pyStrip l) = true) (h3 : pyWordCount (pyStrip l) ≤ 6) :
    parseLines (l :: rest) =
      ⟨BlockType.character, pyStrip l⟩ ::
        (if (rest.takeWhile goodDlg).map pyStrip = [] then []
         else [⟨BlockType.dialogue, pyJoin " " ((rest.takeWhile goodDlg).map pyStrip)⟩]) ++
        parseLines (rest.dropWhile goodDlg) := by
  rw [parseLines_cons_character l rest h0 h1 h2 h3]
  simp [takeDialogue_eq]

/-- Witness for claim C5: JOHN followed by one dialogue line, a blank
line, and another cue gives one Character and one Dialogue block, and the
trailing cue is a lone Character block. -/
theorem claim5_witness :
    parseLines ["JOHN", "It is over.", "", "MARY"] =
      [⟨BlockType.character, "JOHN"⟩, ⟨BlockType.dialogue, "It is over."⟩,
       ⟨BlockType.character, "MARY"⟩] := by
  rw [claim5_character_dialogue "JOHN" ["It is over.", "", "MARY"]
    (by decide) (by decide) (by decide) (by decide)]
  decide

/-- Claim C6: in the block sequence returned by the segmenter, every
Dialogue block has a preceding Character block it belongs to; in fact the
code emits each Dialogue block immediately after its Character block, so
the owning Character is the directly preceding block and no Dialogue block
ever appears without one. -/
theorem claim6_dialogue_preceded (t : String) (i : Nat) (b : Block)
    (hib : (parse_script_blocks t)[i]? = some b)
    (hbd : b.type = BlockType.dialogue) :
    1 ≤ i ∧ ∃ c : Block, (parse_script_blocks t)[i-1]? = some c ∧
      c.type = BlockType.character := by
  by_cases ht : t = ""
  · subst ht
    rw [show parse_script_blocks "" = [] from rfl] at hib
    simp at hib
  · simp only [parse_script_blocks, if_neg ht] at hib ⊢
    exact parseLines_dialogue_prev _ _ le_rfl i b hib hbd

/-- Witness for claim C6 at a concrete two-block parse. -/
theorem claim6_witness :
    1 ≤ 1 ∧ ∃ c : Block, (parse_script_blocks "JOHN\nSo it begins.")[0]? = some c ∧
      c.type = BlockType.character :=
  claim6_dialogue_preceded "JOHN\nSo it begins." 1
    ⟨BlockType.dialogue, "So it begins."⟩ (by decide) (by decide)

/-- Claim C7: in ShortFilm mode (script format not containing the
Social Media marker) with a non-empty outline, the planner targets beat
index equal to the SceneHeading count of the current blocks plus one and
the instruction names that beat; with exactly 3 SceneHeading blocks the
instruction targets beat number 4; with no outline it is the generic
continue-with-next-logical-scene instruction. -/
theorem claim7_planner_beat_target (fmt t outline : String)
    (hm : pyContains fmt "Social Media" = false) :
    (outline ≠ "" → generate_next_scene_instruction fmt t outline =
      "Using the previously created outline, write the scene corresponding to beat #" ++
        toString (countSceneHeadings (parse_script_blocks (pyStrip t)) + 1) ++ ".") ∧
    (outline ≠ "" → countSceneHeadings (parse_script_blocks (pyStrip t)) = 3 →
      generate_next_scene_instruction fmt t outline =
      "Using the previously created outline, write the scene corresponding to beat #4.") ∧
    (outline = "" → generate_next_scene_instruction fmt t outline = generic_instruction) := by
  refine ⟨fun ho => ?_, fun ho hc => ?_, fun ho => ?_⟩
  · rw [generate_next_scene_instruction, if_neg (by simp [hm]), if_pos ho]
    rfl
  · rw [generate_next_scene_instruction, if_neg (by simp [hm]), if_pos ho,
      beat_instruction, hc]
    rfl
  · rw [generate_next_scene_instruction, if_neg (by simp [hm]), if_neg (by simp [ho])]

/-- Witness for claim C7: a draft with three scene headings and a
non-empty outline targets beat number 4. -/
theorem claim7_witness :
    generate_next_scene_instruction "Short Film" "INT. A\n\nINT. B\n\nINT. C" "outline ready" =
      "Using the previously created outline, write the scene corresponding to beat #4." :=
  (claim7_planner_beat_target "Short Film" "INT. A\n\nINT. B\n\nINT. C" "outline ready"
    (by decide)).2.1 (by decide) (by decide)

/-- Counterexample to claim C8 as stated: on an empty draft with no
outline the ShortFilm planner returns the generic
continue-with-next-logical-scene instruction, whose text mentions neither
the digit 1 nor the word first — it is not a start-from-scene/beat-1
instruction, and it differs from the beat-number-1 instruction produced
when an outline is present. -/
theorem claim8_counterexample :
    generate_next_scene_instruction "Short Film" "" "" = generic_instruction ∧
    pyContains generic_instruction "1" = false ∧
    pyContains generic_instruction "first" = false ∧
    generic_instruction ≠
      "Using the previously created outline, write the scene corresponding to beat #1." := by
  decide

/-- Claim C8 (amended): the planner is total on well-formed inputs and
never errors on an empty draft; with no outline it falls back to the
generic default instruction of its mode (the generic next-scene
instruction in ShortFilm mode, the next-variation instruction in
SocialShort mode), and only with a non-empty outline does it produce the
start-from-beat-number-1 instruction on an empty draft. -/
theorem claim8_amended (fmt outline : String) :
    (pyContains fmt "Social Media" = false → outline = "" →
      generate_next_scene_instruction fmt "" outline = generic_instruction) ∧
    (pyContains fmt "Social Media" = false → outline ≠ "" →
      generate_next_scene_instruction fmt "" outline =
        "Using the previously created outline, write the scene corresponding to beat #1.") ∧
    (pyContains fmt "Social Media" = true →
      generate_next_scene_instruction fmt "" outline = social_instruction) := by
  refine ⟨fun hm ho => ?_, fun hm ho => ?_, fun hm => ?_⟩
  · rw [generate_next_scene_instruction, if_neg (by simp [hm]), if_neg (by simp [ho])]
  · rw [generate_next_scene_instruction, if_neg (by simp [hm]), if_pos ho]
    rfl
  · rw [generate_next_scene_instruction, if_pos (by simp [hm])]

/-- Witness for claim C8 at concrete formats and outlines. -/
theorem claim8_witness :
    generate_next_scene_instruction "Short Film" "" "" = generic_instruction ∧
    generate_next_scene_instruction "Short Film" "" "a 6-beat outline" =
      "Using the previously created outline, write the scene corresponding to beat #1." ∧
    generate_next_scene_instruction "Social Media Viral Short (30-90 sec)" "" "" =
      social_instruction :=
  ⟨(claim8_amended "Short Film" "").1 (by decide) rfl,
   (claim8_amended "Short Film" "a 6-beat outline").2.1 (by decide) (by decide),
   (claim8_amended "Social Media Viral Short (30-90 sec)" "").2.2 (by decide)⟩

/-- Claim C9: backend model selection depends solely on prompt length with
threshold 300 characters — prompts shorter than 300 characters select the
fast model llama3-8b-8192 and prompts of 300 or more characters select the
deep model llama3-70b-8192. -/
theorem claim9_model_threshold (p : String) :
    (p.length < 300 → pick_model_for_generation p = "llama3-8b-8192") ∧
    (300 ≤ p.length → pick_model_for_generation p = "llama3-70b-8192") := by
  constructor
  · intro h; simp [pick_model_for_generation, h]
  · intro h; simp [pick_model_for_generation, Nat.not_lt.mpr h]

/-- Witness for claim C9 at a short prompt and a 300-character prompt. -/
theorem claim9_witness :
    pick_model_for_generation "Write one scene." = "llama3-8b-8192" ∧
    pick_model_for_generation ⟨List.replicate 300 'a'⟩ = "llama3-70b-8192" :=
  ⟨(claim9_model_threshold "Write one scene.").1 (by decide),
   (claim9_model_threshold ⟨List.replicate 300 'a'⟩).2
     (by show 300 ≤ (List.replicate 300 'a').length; rw [List.length_replicate])⟩

/-- Claim C10: every block returned by the segmenter has non-empty text
with no leading or trailing whitespace (each classified line is stripped,
blank lines are skipped, and dialogue is a single-space join of stripped
non-empty lines), and segmenting the empty string yields the empty block
sequence. -/
theorem claim10_blocks_clean :
    (∀ t : String, ∀ b ∈ parse_script_blocks t,
      b.text ≠ "" ∧ pyStrip b.text = b.text) ∧
    parse_script_blocks "" = [] := by
  constructor
  · intro t b hb
    by_cases ht : t = ""
    · subst ht
      rw [show parse_script_blocks "" = [] from rfl] at hb
      simp at hb
    · simp only [parse_script_blocks, if_neg ht] at hb
      exact parseLines_blocks_clean _ _ le_rfl b hb
  · rfl

/-- Witness for claim C10 at a concrete padded heading line. -/
theorem claim10_witness :
    (⟨BlockType.scene_heading, "INT. HOUSE - DAY"⟩ : Block).text ≠ "" ∧
    pyStrip (⟨BlockType.scene_heading, "INT. HOUSE - DAY"⟩ : Block).text =
      (⟨BlockType.scene_heading, "INT. HOUSE - DAY"⟩ : Block).text :=
  claim10_blocks_clean.1 "  INT. HOUSE - DAY  "
    ⟨BlockType.scene_heading, "INT. HOUSE - DAY"⟩ (by decide)

end Screenwriter
